import Mathlib

/-!
Verification of the binary-structure decoding engine (`BinaryParser`) of the
binrev repository, as a shallow embedding in Lean.

The embedding follows `src/utils/binaryParser.ts` (the `BinaryParser` class),
`src/utils/dataTypes.ts`, `src/utils/fileReader.ts` and the data model of
`src/types/structure.ts`.  JavaScript numbers that hold byte counts, offsets
and decoded integer values are modelled as `Int` (the engine only ever puts
integers in them); file contents are modelled as `List Nat` of byte values;
fallible or potentially divergent evaluation is modelled with `Option` and a
fuel parameter (the source can recurse unboundedly through substructure
references that mention themselves).  The user-supplied JavaScript of a
`script` field is an external collaborator: its behaviour is abstracted as an
oracle function stored in the parser context, with outcomes (`throw`, or a
returned value of some shape) modelled explicitly.  IEEE-754 float decoding
and the exact UTF-8 transcoding of `TextDecoder` are kept abstract (a float
value carries its raw bytes; text decoding is a fixed injective byte-to-text
map); no verified property inspects either.
-/

namespace BinaryParser

/-- The `DataType` union of `src/types/structure.ts`. -/
inductive DataType where
  | uint8 | uint16 | uint32 | uint64
  | int8 | int16 | int32 | int64
  | float32 | float64
  | string | bytes | struct | script
  deriving DecidableEq

/-- Byte order, `'big' | 'little'` in `src/types/structure.ts`. -/
inductive Endianness where
  | big | little
  deriving DecidableEq

/-- Function `getDataTypeSize` from `src/utils/dataTypes.ts`: the `size` column of the
`DATA_TYPES` table (`null` for the variable-length kinds). -/
def getDataTypeSize : DataType → Option Int
  | .uint8 => some 1
  | .uint16 => some 2
  | .uint32 => some 4
  | .uint64 => some 8
  | .int8 => some 1
  | .int16 => some 2
  | .int32 => some 4
  | .int64 => some 8
  | .float32 => some 4
  | .float64 => some 8
  | .string => none
  | .bytes => none
  | .struct => none
  | .script => none

/-- The `value` of a `ValueMapping` entry: `number | string`. -/
inductive MapValue where
  | num (n : Int)
  | str (s : String)

/-- Interface `ValueMapping` from `src/types/structure.ts`. -/
structure ValueMapping where
  value : MapValue
  description : String

/-- Interface `BitDescription` from `src/types/structure.ts` (`descriptionIfSet` is a
required string, `descriptionIfUnset` is optional). -/
structure BitDescription where
  bitIndex : Int
  descriptionIfSet : String
  descriptionIfUnset : Option String

/-- Interface `FieldDefinition` from `src/types/structure.ts`.  It is a nested inductive
because the legacy `children` attribute holds further field definitions.
Attribute order follows the source interface; the purely documentary
`description` attribute is omitted (the engine never reads it). -/
inductive FieldDefinition where
  | mk
    (id : String)
    (name : String)
    (type : DataType)
    (length : Option Int)
    (lengthRef : Option String)
    (endianness : Endianness)
    (offset : Option Int)
    (repeats : Option Int)
    (repeatRef : Option String)
    (children : Option (List FieldDefinition))
    (substructureRef : Option String)
    (script : Option String)
    (valueMap : Option (List ValueMapping))
    (bitDescriptions : Option (List BitDescription))

def FieldDefinition.id : FieldDefinition → String
  | .mk i _ _ _ _ _ _ _ _ _ _ _ _ _ => i

def FieldDefinition.name : FieldDefinition → String
  | .mk _ n _ _ _ _ _ _ _ _ _ _ _ _ => n

def FieldDefinition.type : FieldDefinition → DataType
  | .mk _ _ t _ _ _ _ _ _ _ _ _ _ _ => t

def FieldDefinition.length : FieldDefinition → Option Int
  | .mk _ _ _ l _ _ _ _ _ _ _ _ _ _ => l

def FieldDefinition.lengthRef : FieldDefinition → Option String
  | .mk _ _ _ _ r _ _ _ _ _ _ _ _ _ => r

def FieldDefinition.endianness : FieldDefinition → Endianness
  | .mk _ _ _ _ _ e _ _ _ _ _ _ _ _ => e

def FieldDefinition.offset : FieldDefinition → Option Int
  | .mk _ _ _ _ _ _ o _ _ _ _ _ _ _ => o

def FieldDefinition.repeats : FieldDefinition → Option Int
  | .mk _ _ _ _ _ _ _ r _ _ _ _ _ _ => r

def FieldDefinition.repeatRef : FieldDefinition → Option String
  | .mk _ _ _ _ _ _ _ _ r _ _ _ _ _ => r

def FieldDefinition.children : FieldDefinition → Option (List FieldDefinition)
  | .mk _ _ _ _ _ _ _ _ _ c _ _ _ _ => c

def FieldDefinition.substructureRef : FieldDefinition → Option String
  | .mk _ _ _ _ _ _ _ _ _ _ s _ _ _ => s

def FieldDefinition.script : FieldDefinition → Option String
  | .mk _ _ _ _ _ _ _ _ _ _ _ s _ _ => s

def FieldDefinition.valueMap : FieldDefinition → Option (List ValueMapping)
  | .mk _ _ _ _ _ _ _ _ _ _ _ _ v _ => v

def FieldDefinition.bitDescriptions : FieldDefinition → Option (List BitDescription)
  | .mk _ _ _ _ _ _ _ _ _ _ _ _ _ b => b

/-- The step `const itemDef = (spread of singleItemDef, id: ...)` in
`parseRepeatedField`: the same definition with only the id replaced. -/
def FieldDefinition.setId : FieldDefinition → String → FieldDefinition
  | .mk _ n t l lr e o r rr c s sc v b, i => .mk i n t l lr e o r rr c s sc v b

/-- A decoded field value (`FieldValueType` of `src/types/structure.ts`):
JavaScript `number` (integer-valued) / `bigint` / `string` / `boolean` /
arrays / `null` / `undefined`.  `float` keeps the raw bytes of an IEEE-754
decode abstract, and `raw` stands for the `Uint8Array` returned by the
default branch of `parseValue`. -/
inductive FieldValue where
  | null
  | undef
  | num (n : Int)
  | big (n : Int)
  | str (s : String)
  | bool (b : Bool)
  | arr (vs : List FieldValue)
  | float (bs : List Nat)
  | raw (bs : List Nat)

/-- JavaScript `value === null`. -/
def FieldValue.isNull : FieldValue → Bool
  | .null => true
  | _ => false

/-- Interface `ParsedField` from `src/types/structure.ts` (nested inductive because
`children` holds further parsed fields; `children` is optional as in the
source interface). -/
inductive ParsedField where
  | mk
    (definition : FieldDefinition)
    (value : FieldValue)
    (rawValue : List Nat)
    (offset : Int)
    (length : Int)
    (children : Option (List ParsedField))

def ParsedField.definition : ParsedField → FieldDefinition
  | .mk d _ _ _ _ _ => d

def ParsedField.value : ParsedField → FieldValue
  | .mk _ v _ _ _ _ => v

def ParsedField.rawValue : ParsedField → List Nat
  | .mk _ _ r _ _ _ => r

def ParsedField.offset : ParsedField → Int
  | .mk _ _ _ o _ _ => o

def ParsedField.length : ParsedField → Int
  | .mk _ _ _ _ l _ => l

def ParsedField.children : ParsedField → Option (List ParsedField)
  | .mk _ _ _ _ _ c => c

/-- Interface `SubstructureTemplate` from `src/types/structure.ts`. -/
structure SubstructureTemplate where
  id : String
  name : String
  fields : List FieldDefinition

/-- The value a user script returned, as far as the host's validation in
`parseScriptField` can observe it: either not a (truthy) object at all, or an
object together with whether it has `value`/`length` properties, the value
found, whether `length` is a number, and that number. -/
inductive ScriptReturn where
  | nonObject
  | obj (hasValue : Bool) (value : FieldValue) (hasLength : Bool)
        (lengthIsNumber : Bool) (length : Int)

/-- Outcome of executing a user script: it either throws or returns. -/
inductive ScriptOutcome where
  | throws (msg : String)
  | returns (r : ScriptReturn)

/-- The parser's fixed data: the file bytes (`FileData.file`, with
`FileData.size` equal to their count, as the constructor documents), the
substructure catalog, and the abstracted behaviour of user scripts (given the
script source, the current offset and the reference index of already-decoded
fields — the script closure also sees the file itself, which is fixed in this
context). -/
structure ParserCtx where
  file : List Nat
  substructures : List SubstructureTemplate
  scriptEval : String → Int → List (String × ParsedField) → ScriptOutcome

/-- Field `this.fileSize` (the `FileData.size` handed to the constructor). -/
def ParserCtx.fileSize (ctx : ParserCtx) : Int := ctx.file.length

/-- The `parsedFields` map: JavaScript `Map.set` overwrites, so it is modelled
as a prepend-and-find-first association list. -/
def RefMap := List (String × ParsedField)

/-- JavaScript `Map.get`. -/
def refMapGet (pf : RefMap) (key : String) : Option ParsedField :=
  (List.find? (fun kv => kv.1 == key) pf).map (fun kv => kv.2)

/-- JavaScript truthiness of an optional string (`undefined` and the empty
string are falsy). -/
def optTruthy : Option String → Bool
  | none => false
  | some s => s ≠ ""

/-- Function `readFileSlice` of `src/utils/fileReader.ts` reads `file.slice(start, end)`;
`Blob.slice` clamps both indices to the blob size and interprets negative
indices relative to the end, producing an empty result when the resolved end
precedes the resolved start. -/
def readFileSlice (data : List Nat) (s e : Int) : List Nat :=
  let size : Int := data.length
  let rs : Int := if s < 0 then max (size + s) 0 else min s size
  let re : Int := if e < 0 then max (size + e) 0 else min e size
  let span : Int := max (re - rs) 0
  (data.drop rs.toNat).take span.toNat

/-- Little-endian byte combination. -/
def bytesToNat (bs : List Nat) : Nat :=
  bs.foldr (fun b acc => b + 256 * acc) 0

/-- Reading `DataView.getUintN(0, littleEndian)` on the first `n` bytes. -/
def readUInt (data : List Nat) (n : Nat) (little : Bool) : Nat :=
  let bs := data.take n
  bytesToNat (if little then bs else bs.reverse)

/-- Two's-complement reinterpretation of an `n`-byte unsigned value. -/
def toSigned (u : Nat) (n : Nat) : Int :=
  if u < 2 ^ (8 * n - 1) then (u : Int) else (u : Int) - 2 ^ (8 * n)

/-- The byte-to-text transcoding of `TextDecoder` in `parseValue`, kept
abstract as a fixed per-byte map: no verified property inspects the decoded
text, only the fact that a string value was produced. -/
def textDecode (data : List Nat) : String :=
  String.mk (data.map Char.ofNat)

/-- JavaScript `b.toString(16).padStart(2, '0')` for one byte. -/
def byteToHex (b : Nat) : String :=
  let s := String.mk (Nat.toDigits 16 b)
  if b < 16 then "0" ++ s else s

/-- The `bytes` branch of `parseValue`: lowercase hex pairs joined by single
spaces. -/
def bytesToHexDump (data : List Nat) : String :=
  String.intercalate " " (data.map byteToHex)

/-- The insufficiency check at the top of `parseValue`: a fixed-size type with
fewer bytes than its size throws (modelled as `none` from `parseValueOpt`). -/
def insufficientForType (t : DataType) (len : Nat) : Bool :=
  match getDataTypeSize t with
  | some ts => (len : Int) < ts
  | none => false

/-- The type dispatch of `parseValue` (`src/unnamed/part_000`, lines 515-547),
reached only when enough bytes are present. -/
def decodeValue (d : FieldDefinition) (data : List Nat) : FieldValue :=
  let isLittleEndian := d.endianness = .little
  match d.type with
  | .uint8 => .num (readUInt data 1 isLittleEndian)
  | .uint16 => .num (readUInt data 2 isLittleEndian)
  | .uint32 => .num (readUInt data 4 isLittleEndian)
  | .uint64 => .big (readUInt data 8 isLittleEndian)
  | .int8 => .num (toSigned (readUInt data 1 isLittleEndian) 1)
  | .int16 => .num (toSigned (readUInt data 2 isLittleEndian) 2)
  | .int32 => .num (toSigned (readUInt data 4 isLittleEndian) 4)
  | .int64 => .big (toSigned (readUInt data 8 isLittleEndian) 8)
  | .float32 => .float (data.take 4)
  | .float64 => .float (data.take 8)
  | .string => .str (textDecode data)
  | .bytes => .str (bytesToHexDump data)
  | _ => .raw data

/-- Function `parseValue`: `none` models the `throw` on insufficient data for a
fixed-size type, which `parseField` catches and downgrades to a null value. -/
def parseValueOpt (d : FieldDefinition) (data : List Nat) : Option FieldValue :=
  if insufficientForType d.type data.length then none
  else some (decodeValue d data)

/-- JavaScript strict equality `m.value === value` between a mapping entry's
`number | string` value and a decoded field value.  Distinct runtime types
never compare strictly equal — in particular a `bigint` never equals a
`number`.  (Abstract float values are likewise never matched; no claim
involves float-valued mappings.) -/
def jsStrictEq : MapValue → FieldValue → Bool
  | .num a, .num b => a == b
  | .str a, .str b => a == b
  | _, _ => false

/-- Method `applyValueMapping` (`src/unnamed/part_000`, lines 233-245). -/
def applyValueMapping (d : FieldDefinition) (value : FieldValue) : FieldValue :=
  match d.valueMap with
  | none => value
  | some vm =>
    if vm.length = 0 ∨ value.isNull then value
    else
      match vm.find? (fun m => jsStrictEq m.value value) with
      | some mapping => .str mapping.description
      | none => value

/-- Conversion `ToInt32` as applied by the JavaScript `>>` operator to its left operand. -/
def toInt32 (x : Int) : Int :=
  (x + 2 ^ 31) % 2 ^ 32 - 2 ^ 31

/-- JavaScript `(value >> bitIndex) & 1`: the left operand goes through
`ToInt32`, the shift count through `ToUint32 … & 31` (here `emod 32`), the
shift is arithmetic (flooring), and `& 1` takes the low bit. -/
def jsBit (value : Int) (bitIndex : Int) : Int :=
  Int.fdiv (toInt32 value) (2 ^ (bitIndex % 32).toNat) % 2

/-- The accumulation loop of `applyBitDescriptions`, in list order. -/
def collectBits (n : Int) : List BitDescription → List String
  | [] => []
  | bd :: rest =>
    let bitValue := jsBit n bd.bitIndex
    if bitValue = 1 ∧ bd.descriptionIfSet ≠ "" then
      bd.descriptionIfSet :: collectBits n rest
    else if bitValue = 0 ∧ optTruthy bd.descriptionIfUnset then
      bd.descriptionIfUnset.getD "" :: collectBits n rest
    else
      collectBits n rest

/-- Method `applyBitDescriptions` (`src/unnamed/part_000`, lines 253-278): skipped
unless a bit-description list is present and non-empty and the value is a
plain number (`null` is subsumed: it is not a number). -/
def applyBitDescriptions (d : FieldDefinition) (value : FieldValue) : FieldValue :=
  match d.bitDescriptions, value with
  | some bds, .num n =>
    if bds.length = 0 then value
    else
      let collected := collectBits n bds
      if collected.length > 0 then .arr (collected.map FieldValue.str) else value
  | _, _ => value

/-- Method `getFieldLength` (`src/unnamed/part_000`, lines 462-481).  The `lengthRef`
guard is JavaScript truthiness, the reference must resolve to a field whose
value has `typeof === 'number'`. -/
def getFieldLength (pf : RefMap) (d : FieldDefinition) : Int :=
  let refValue : Option Int :=
    match d.lengthRef with
    | some r =>
      if r ≠ "" then
        match refMapGet pf r with
        | some refField =>
          match refField.value with
          | .num n => some n
          | _ => none
        | none => none
      else none
    | none => none
  match refValue with
  | some n => n
  | none =>
    match d.length with
    | some l => l
    | none =>
      match getDataTypeSize d.type with
      | some ts => ts
      | none => 1

/-- Method `getRepeatCount` (`src/unnamed/part_000`, lines 488-497).  The fallback is
`definition.repeats || 1`, so a static repeat count of `0` (falsy) also yields
`1`. -/
def getRepeatCount (pf : RefMap) (d : FieldDefinition) : Int :=
  let refValue : Option Int :=
    match d.repeatRef with
    | some r =>
      if r ≠ "" then
        match refMapGet pf r with
        | some refField =>
          match refField.value with
          | .num n => some n
          | _ => none
        | none => none
      else none
    | none => none
  match refValue with
  | some n => n
  | none =>
    match d.repeats with
    | some r => if r = 0 then 1 else r
    | none => 1

/-- The error result `parseScriptField` builds in its `catch` block. -/
def scriptError (d : FieldDefinition) (offset : Int) (msg : String) : ParsedField :=
  .mk d (.str ("Script Error: " ++ msg)) [] offset 0 none

/-- Message of the return-shape validation error in `parseScriptField`. -/
def scriptShapeErrorMsg : String :=
  "Script must return an object with \"value\" and \"length\" properties"

/-- Message of the length validation error in `parseScriptField`. -/
def scriptLengthErrorMsg : String :=
  "Script \"length\" must be a non-negative number"

/-- Method `parseScriptField` (`src/unnamed/part_000`, lines 286-358).  Script
execution itself is the context's oracle; everything the host does around it
— the falsy-script guard, the return-shape validation, the length validation,
the clamping of the consumed bytes, and the catch-all conversion of failures
into an error-string result — is modelled here. -/
def parseScriptField (ctx : ParserCtx) (pf : RefMap) (d : FieldDefinition)
    (offset : Int) : ParsedField :=
  match d.script with
  | none => .mk d .null [] offset 0 none
  | some s =>
    if s = "" then .mk d .null [] offset 0 none
    else
      match ctx.scriptEval s offset pf with
      | .throws msg => scriptError d offset msg
      | .returns .nonObject => scriptError d offset scriptShapeErrorMsg
      | .returns (.obj hasValue value hasLength lengthIsNumber length) =>
        if hasValue = false ∨ hasLength = false then
          scriptError d offset scriptShapeErrorMsg
        else if lengthIsNumber = false ∨ length < 0 then
          scriptError d offset scriptLengthErrorMsg
        else
          let bytesAvailable := ctx.fileSize - offset
          let actualLength := min length bytesAvailable
          let rawValue := readFileSlice ctx.file offset (offset + actualLength)
          .mk d value rawValue offset actualLength none

/-- The offset-override step at the top of `parseField`. -/
def resolvedOffset (d : FieldDefinition) (startOffset : Int) : Int :=
  match d.offset with
  | some o => o
  | none => startOffset

/-- The fixed-size insufficiency test of `parseField` (lines 156-157). -/
def insufficientFixed (typeSize : Option Int) (actualBytesToRead : Int) : Bool :=
  match typeSize with
  | some ts => actualBytesToRead < ts
  | none => false

mutual

/-- Method `parseField` (`src/unnamed/part_000`, lines 114-225).  The reference map
is read-only below the top-level driver (only `parseStructure` registers
results), so it is threaded as a plain argument.  `fuel` bounds the recursion
through substructure references, which the source leaves unbounded (a
self-referencing template would not terminate); `none` means the fuel ran
out, a state the real program only reaches by diverging. -/
def parseField (ctx : ParserCtx) (pf : RefMap) :
    Nat → FieldDefinition → Int → Option Int → Option ParsedField
  | 0, _, _, _ => none
  | fuel + 1, definition, startOffset, repeatCount =>
    let offset := resolvedOffset definition startOffset
    if offset ≥ ctx.fileSize then
      some (.mk definition .null [] offset 0 none)
    else if definition.type = .script then
      some (parseScriptField ctx pf definition offset)
    else if definition.type = .struct ∧ optTruthy definition.substructureRef then
      parseSubstructure ctx pf fuel definition offset
    else
      let requestedLength := getFieldLength pf definition
      let bytesAvailable := ctx.fileSize - offset
      let actualBytesToRead := min requestedLength bytesAvailable
      let typeSize := getDataTypeSize definition.type
      if insufficientFixed typeSize actualBytesToRead then
        some (.mk definition .null
          (readFileSlice ctx.file offset (offset + actualBytesToRead))
          offset requestedLength none)
      else
        let rc : Int :=
          match repeatCount with
          | some c => c
          | none => getRepeatCount pf definition
        if rc > 1 then
          parseRepeatedField ctx pf fuel definition offset rc
        else
          let rawValue := readFileSlice ctx.file offset (offset + actualBytesToRead)
          let value : FieldValue :=
            match parseValueOpt definition rawValue with
            | some v => applyBitDescriptions definition (applyValueMapping definition v)
            | none => .null
          if definition.type = .struct ∧ definition.children.isSome ∧ value.isNull = false then
            match parseFieldList ctx pf fuel (definition.children.getD []) offset with
            | none => none
            | some (childResults, childOffset) =>
              some (.mk definition value rawValue offset (childOffset - offset)
                (some childResults))
          else
            some (.mk definition value rawValue offset requestedLength none)
termination_by structural fuel _ _ _ => fuel

/-- The sequential child loop shared verbatim by `parseSubstructure`
(lines 384-392) and the legacy-children branch of `parseField`
(lines 210-218): stop before a child whose start is at or past the end of the
file, decode each child at the running offset, advance by the child's
reported extent.  Returns the decoded children and the final offset. -/
def parseFieldList (ctx : ParserCtx) (pf : RefMap) :
    Nat → List FieldDefinition → Int → Option (List ParsedField × Int)
  | 0, _, _ => none
  | _ + 1, [], childOffset => some ([], childOffset)
  | fuel + 1, childDef :: rest, childOffset =>
    if childOffset ≥ ctx.fileSize then some ([], childOffset)
    else
      match parseField ctx pf fuel childDef childOffset none with
      | none => none
      | some childParsed =>
        match parseFieldList ctx pf fuel rest (childParsed.offset + childParsed.length) with
        | none => none
        | some (results, finalOffset) => some (childParsed :: results, finalOffset)
termination_by structural fuel _ _ => fuel

/-- Method `parseSubstructure` (`src/unnamed/part_000`, lines 366-406).  Note that
the template's fields are decoded against the caller's reference map `pf`
unchanged: nothing below the top-level driver ever registers a result, so
substructure children resolve references to the outer structure's
already-decoded top-level fields and never to their own siblings. -/
def parseSubstructure (ctx : ParserCtx) (pf : RefMap) :
    Nat → FieldDefinition → Int → Option ParsedField
  | 0, _, _ => none
  | fuel + 1, definition, offset =>
    match ctx.substructures.find? (fun s => some s.id == definition.substructureRef) with
    | none => some (.mk definition .null [] offset 0 none)
    | some substructure =>
      match parseFieldList ctx pf fuel substructure.fields offset with
      | none => none
      | some (childResults, childOffset) =>
        let totalLength := childOffset - offset
        let actualBytesToRead := min totalLength (ctx.fileSize - offset)
        let rawValue := readFileSlice ctx.file offset (offset + actualBytesToRead)
        some (.mk definition (.arr (childResults.map ParsedField.value)) rawValue
          offset actualBytesToRead (some childResults))
termination_by structural fuel _ _ => fuel

/-- The `for (let i = 0; i < count; i++)` loop of `parseRepeatedField`
(lines 423-441), on the remaining iteration count.  The source destructures
`const (spread) singleItemDef = definition`, which — despite its comment about
removing repeat properties — copies every property; only `id` is then
replaced with the synthetic `originalId[i]`.  Each instance is decoded with
the explicit repeat override `1`, which alone prevents re-expansion. -/
def parseRepeatedAux (ctx : ParserCtx) (pf : RefMap) :
    Nat → FieldDefinition → Nat → Int → Int → Option (List ParsedField × Int)
  | 0, _, _, _, _ => none
  | _ + 1, _, 0, _, currentOffset => some ([], currentOffset)
  | fuel + 1, definition, remaining + 1, i, currentOffset =>
    if currentOffset ≥ ctx.fileSize then some ([], currentOffset)
    else
      let itemDef := definition.setId (definition.id ++ "[" ++ toString i ++ "]")
      match parseField ctx pf fuel itemDef currentOffset (some 1) with
      | none => none
      | some itemParsed =>
        if itemParsed.value.isNull ∧ itemParsed.length = 0 then
          some ([], currentOffset)
        else
          match parseRepeatedAux ctx pf fuel definition remaining (i + 1)
              (itemParsed.offset + itemParsed.length) with
          | none => none
          | some (rest, finalOffset) => some (itemParsed :: rest, finalOffset)
termination_by structural fuel _ _ _ _ => fuel

/-- Method `parseRepeatedField` (`src/unnamed/part_000`, lines 415-455). -/
def parseRepeatedField (ctx : ParserCtx) (pf : RefMap) :
    Nat → FieldDefinition → Int → Int → Option ParsedField
  | 0, _, _, _ => none
  | fuel + 1, definition, offset, count =>
    match parseRepeatedAux ctx pf fuel definition count.toNat 0 offset with
    | none => none
    | some (children, currentOffset) =>
      let totalLength := currentOffset - offset
      let actualBytesToRead := min totalLength (ctx.fileSize - offset)
      let rawValue := readFileSlice ctx.file offset (offset + actualBytesToRead)
      some (.mk definition (.arr (children.map ParsedField.value)) rawValue
        offset actualBytesToRead (some children))
termination_by structural fuel _ _ _ => fuel

end

/-- The driver loop of `parseStructure` (`src/unnamed/part_000`, lines
83-98): decode the field at the running offset, append the result, register
it under the field definition's id, advance the offset to
`parsed.offset + parsed.length`, and stop before the remaining fields once
the new offset is at or past the end of the file. -/
def parseStructAux (ctx : ParserCtx) :
    Nat → RefMap → Int → List FieldDefinition → Option (List ParsedField)
  | _, _, _, [] => some []
  | 0, _, _, _ :: _ => none
  | fuel + 1, pf, offset, field :: rest =>
    match parseField ctx pf fuel field offset none with
    | none => none
    | some parsed =>
      let pf2 : RefMap := (field.id, parsed) :: pf
      let offset2 := parsed.offset + parsed.length
      if offset2 ≥ ctx.fileSize then some [parsed]
      else
        match parseStructAux ctx fuel pf2 offset2 rest with
        | none => none
        | some results => some (parsed :: results)

/-- Method `parseStructure` (`src/unnamed/part_000`, lines 76-105): clears the
reference map (hence the fresh empty map) and runs the driver loop from
offset `0`. -/
def parseStructure (ctx : ParserCtx) (fuel : Nat)
    (fields : List FieldDefinition) : Option (List ParsedField) :=
  parseStructAux ctx fuel [] 0 fields

/-! ### Claim-side (specification) formulations

These definitions follow the words of the spec sentences under scrutiny, to
be compared with the embedded source functions above. -/

/-- Claim-side resolution rule shared by length and repeat references: a
present, non-empty reference id that maps to an already-decoded field whose
value is a plain number. -/
def resolveNumericRef (pf : RefMap) (ref : Option String) : Option Int :=
  match ref with
  | some r =>
    if r ≠ "" then
      match refMapGet pf r with
      | some f =>
        match f.value with
        | .num n => some n
        | _ => none
      | none => none
    else none
  | none => none

/-- Claim-side per-entry label rule of bit-description post-processing:
collect the set-label when bit `(value >> bitIndex) & 1` is set and a
set-label exists, the unset-label when it is unset and an unset-label
exists. -/
def specBitLabel (n : Int) (bd : BitDescription) : Option String :=
  if jsBit n bd.bitIndex = 1 then
    if bd.descriptionIfSet ≠ "" then some bd.descriptionIfSet else none
  else
    match bd.descriptionIfUnset with
    | some s => if s ≠ "" then some s else none
    | none => none

/-- Claim-side bit-description post-processing proper: when the value is a
plain number, collect the labels over the configured list in list order and
replace the value by them iff at least one was collected. -/
def specBitDescriptions (d : FieldDefinition) (value : FieldValue) : FieldValue :=
  match value with
  | .num n =>
    let labels := (d.bitDescriptions.getD []).filterMap (specBitLabel n)
    if labels.isEmpty then value else .arr (labels.map FieldValue.str)
  | _ => value

/-- A script execution outcome that `parseScriptField`'s validation treats as
a failure: a throw, a non-object return, a missing `value` or `length`
property, or a `length` that is not a non-negative number. -/
def scriptOutcomeFails : ScriptOutcome → Prop
  | .throws _ => True
  | .returns .nonObject => True
  | .returns (.obj hasValue _ hasLength lengthIsNumber length) =>
    hasValue = false ∨ hasLength = false ∨ lengthIsNumber = false ∨ length < 0

/-! ### Concrete fixtures used by witnesses and counterexamples -/

/-- A minimal field definition: only id (doubling as name), type and
endianness are set. -/
def mkF (id : String) (t : DataType) (e : Endianness) : FieldDefinition :=
  .mk id id t none none e none none none none none none none none

def FieldDefinition.withLength : FieldDefinition → Int → FieldDefinition
  | .mk i n t _ lr e o r rr c s sc v b, l => .mk i n t (some l) lr e o r rr c s sc v b

def FieldDefinition.withLengthRef : FieldDefinition → String → FieldDefinition
  | .mk i n t l _ e o r rr c s sc v b, lr => .mk i n t l (some lr) e o r rr c s sc v b

def FieldDefinition.withRepeats : FieldDefinition → Int → FieldDefinition
  | .mk i n t l lr e o _ rr c s sc v b, r => .mk i n t l lr e o (some r) rr c s sc v b

def FieldDefinition.withRepeatRef : FieldDefinition → String → FieldDefinition
  | .mk i n t l lr e o r _ c s sc v b, rr => .mk i n t l lr e o r (some rr) c s sc v b

def FieldDefinition.withSubstructureRef : FieldDefinition → String → FieldDefinition
  | .mk i n t l lr e o r rr c _ sc v b, s => .mk i n t l lr e o r rr c (some s) sc v b

def FieldDefinition.withScript : FieldDefinition → String → FieldDefinition
  | .mk i n t l lr e o r rr c s _ v b, sc => .mk i n t l lr e o r rr c s (some sc) v b

def FieldDefinition.withValueMap : FieldDefinition → List ValueMapping → FieldDefinition
  | .mk i n t l lr e o r rr c s sc _ b, v => .mk i n t l lr e o r rr c s sc (some v) b

def FieldDefinition.withBitDescriptions : FieldDefinition → List BitDescription → FieldDefinition
  | .mk i n t l lr e o r rr c s sc v _, b => .mk i n t l lr e o r rr c s sc v (some b)

/-- Script oracle for contexts whose structures contain no script fields
(never consulted during those decodes). -/
def noScripts : String → Int → List (String × ParsedField) → ScriptOutcome :=
  fun _ _ _ => .throws "no script"

/-- The lengths of a parsed field's children (empty when it has none). -/
def childLengths (p : ParsedField) : List Int :=
  (p.children.getD []).map ParsedField.length

/-- Fixture for the substructure scoping claims: an outer `uint8` field
`len`, then a struct field referencing template `t`. -/
def lenDef : FieldDefinition := mkF "len" .uint8 .big

/-- Template-internal `uint8` sibling `u` of the scoping fixture. -/
def uDef : FieldDefinition := mkF "u" .uint8 .big

/-- Template-internal string whose `lengthRef` names its sibling `u`. -/
def wDef : FieldDefinition := (mkF "w" .string .big).withLengthRef "u"

/-- Template-internal string whose `lengthRef` names the outer field `len`. -/
def s2Def : FieldDefinition := (mkF "s2" .string .big).withLengthRef "len"

/-- The substructure template of the scoping fixture. -/
def tmplT : SubstructureTemplate := ⟨"t", "T", [uDef, wDef, s2Def]⟩

/-- The struct field referencing template `t`. -/
def subDef : FieldDefinition := (mkF "sub" .struct .big).withSubstructureRef "t"

/-- Scoping-fixture context over the file `a :: b :: bs`. -/
def scopeCtx (a b : Nat) (bs : List Nat) : ParserCtx := ⟨a :: b :: bs, [tmplT], noScripts⟩

/-- Scoping-fixture top-level field list. -/
def scopeFields : List FieldDefinition := [lenDef, subDef]

/-- The sibling-sequencing relation of the monotonicity invariant: a next
sibling whose descriptor carries no explicit offset starts exactly where the
previous one ended. -/
def followsSequentially (p q : ParsedField) : Prop :=
  q.definition.offset = none → q.offset = p.offset + p.length

/-- A placeholder parsed field (used only as a `getD` default in closed
witness statements). -/
def pfDefault : ParsedField := .mk (mkF "" .uint8 .big) .null [] 0 0 none

/-- Repeat fixture: the repository's own repeated-field test input. -/
def repCtx : ParserCtx := ⟨[0x12, 0x34, 0x56, 0x78], [], noScripts⟩

/-- Repeat fixture field: big-endian `uint16` with a static repeat count 2. -/
def repDef : FieldDefinition := (mkF "f1" .uint16 .big).withRepeats 2

/-- A field with static repeat count `0` (falsy in JavaScript). -/
def rep0Def : FieldDefinition := (mkF "r0" .uint8 .big).withRepeats 0

/-- A field with an empty-string `lengthRef` (falsy) and static length 4. -/
def emptyRefDef : FieldDefinition := ((mkF "e" .uint8 .big).withLengthRef "").withLength 4

/-- A decoded field registered under the empty-string id with numeric value 9. -/
def emptyIdField : ParsedField := .mk (mkF "x" .uint8 .big) (.num 9) [9] 0 1 none

/-- Reference map binding the empty-string id. -/
def emptyIdMap : RefMap := [("", emptyIdField)]

/-- Reference map binding id `len` to a decoded field of numeric value 7. -/
def refMap7 : RefMap := [("len", .mk lenDef (.num 7) [7] 0 1 none)]

/-- A string field with both a resolvable `lengthRef` and a static length 3. -/
def lenRefDef : FieldDefinition := ((mkF "s" .string .big).withLengthRef "len").withLength 3

/-- Insufficient-data fixture: three bytes of file. -/
def insufCtx : ParserCtx := ⟨[0, 1, 2], [], noScripts⟩

/-- A `uint32` field with a static length of 2 bytes. -/
def insufDef : FieldDefinition := (mkF "x" .uint32 .big).withLength 2

/-- The repository test's insufficient-data input: two bytes of file. -/
def insufCtxW : ParserCtx := ⟨[1, 2], [], noScripts⟩

/-- A plain `uint32` field. -/
def insufDefW : FieldDefinition := mkF "f1" .uint32 .big

/-- Chain fixture: four bytes, a `uint8` then a `uint16`. -/
def chainCtx : ParserCtx := ⟨[1, 2, 3, 4], [], noScripts⟩

/-- Chain fixture field list. -/
def chainFields : List FieldDefinition := [mkF "a" .uint8 .big, mkF "b" .uint16 .big]

/-- A script oracle whose every execution throws. -/
def failOracle : String → Int → List (String × ParsedField) → ScriptOutcome :=
  fun _ _ _ => .throws "boom"

/-- Script-failure fixture context. -/
def scriptCtx : ParserCtx := ⟨[9, 9], [], failOracle⟩

/-- A script field whose script source is non-empty. -/
def scriptDef : FieldDefinition := (mkF "sc" .script .big).withScript "throw"

/-- The sibling decoded after the failing script field. -/
def afterDef : FieldDefinition := mkF "z" .uint8 .big

/-- A `uint64` field with a value map whose sole entry matches the number 5. -/
def bigDef : FieldDefinition := (mkF "q" .uint64 .big).withValueMap [⟨.num 5, "five"⟩]

/-! ### Helper lemmas -/

theorem isNull_iff (v : FieldValue) : v.isNull = true ↔ v = .null := by
  cases v <;> simp [FieldValue.isNull]

theorem jsBit_cases (n b : Int) : jsBit n b = 0 ∨ jsBit n b = 1 := by
  unfold jsBit
  omega

theorem collectBits_eq_filterMap (n : Int) (bds : List BitDescription) :
    collectBits n bds = bds.filterMap (specBitLabel n) := by
  induction bds with
  | nil => rfl
  | cons bd rest ih =>
    rw [collectBits, List.filterMap_cons]
    rcases jsBit_cases n bd.bitIndex with h | h
    · cases hs : bd.descriptionIfUnset with
      | none => simp [specBitLabel, h, hs, optTruthy, ih]
      | some s =>
        by_cases hse : s = "" <;>
          simp [specBitLabel, h, hs, hse, optTruthy, ih]
    · by_cases hset : bd.descriptionIfSet = "" <;>
        simp [specBitLabel, h, hset, ih]

theorem applyValueMapping_big (d : FieldDefinition) (n : Int) :
    applyValueMapping d (.big n) = .big n := by
  have hnone : ∀ vm : List ValueMapping,
      vm.find? (fun m => jsStrictEq m.value (.big n)) = none := by
    intro vm
    apply List.find?_eq_none.mpr
    intro m _
    cases m.value <;> simp [jsStrictEq]
  unfold applyValueMapping
  cases hv : d.valueMap with
  | none => rfl
  | some vm =>
    dsimp only
    split
    · rfl
    · rw [hnone vm]

/-! ### Claim theorems -/

/-- C2 (code_bug evidence): on the repository's own repeated-field test input
(`12 34 56 78`, a big-endian `uint16` with `repeats = 2` and id `f1`), the
per-instance descriptors recorded in the decoded children carry the synthetic
ids `f1[0]`, `f1[1]` — but their repeat-related attribute `repeats` is still
`some 2`, not cleared, although both the claim and the source's own comment
at `src/unnamed/part_000` line 429 ("removing repeat properties to prevent
recursion") say it is removed; `const (spread) singleItemDef = definition`
copies every property.  Re-expansion is prevented only by the explicit
single-instance repeat override (hence the instances have no children of
their own, third component `none`). -/
theorem repeat_descriptor_retains_repeats :
    (parseStructure repCtx 20 [repDef]).map (fun rs => rs.map (fun p =>
      (p.children.getD []).map (fun c =>
        (c.definition.id, c.definition.repeats, c.children)))) =
    some [[("f1[0]", some 2, none), ("f1[1]", some 2, none)]] := rfl

/-- C7: bit-description post-processing of the source (`applyBitDescriptions`)
coincides, for every field definition and every value, with the claim's
formulation: it applies only when the post-value-mapping value is still a
plain number; each entry of the `bitDescriptions` list is visited in list
order; bit `(value >> bitIndex) & 1` selects the set-label (when present) or
the unset-label (when present); the value becomes the ordered collected label
list iff at least one label was collected, and is left untouched otherwise. -/
theorem bit_descriptions_spec_equiv (d : FieldDefinition) (value : FieldValue) :
    applyBitDescriptions d value = specBitDescriptions d value := by
  unfold applyBitDescriptions specBitDescriptions
  cases hbd : d.bitDescriptions with
  | none => cases value <;> rfl
  | some bds =>
    cases value <;> try rfl
    dsimp only [Option.getD_some]
    rename_i n
    rw [collectBits_eq_filterMap]
    by_cases h0 : bds.length = 0
    · rw [if_pos h0]
      rcases List.length_eq_zero.mp h0 with rfl
      rfl
    · rw [if_neg h0]
      by_cases he : (bds.filterMap (specBitLabel n)).isEmpty
      · rw [if_pos he]
        have : bds.filterMap (specBitLabel n) = [] := List.isEmpty_iff.mp he
        simp [this]
      · rw [if_pos ?_]
        · rw [if_neg he]
        · have := List.isEmpty_iff.not.mp he
          have hne : bds.filterMap (specBitLabel n) ≠ [] := this
          have := List.length_pos.mpr hne
          omega

/-- C8: decoding is deterministic — the decode entry point is a function of
the structure definition, the substructure catalog, the source bytes and the
(deterministically modelled) script behaviour alone, so two runs over equal
inputs produce structurally identical result trees. -/
theorem decode_deterministic (c1 c2 : ParserCtx) (fuel : Nat)
    (fields : List FieldDefinition) (hf : c1.file = c2.file)
    (hs : c1.substructures = c2.substructures)
    (he : c1.scriptEval = c2.scriptEval) :
    parseStructure c1 fuel fields = parseStructure c2 fuel fields := by
  cases c1
  cases c2
  cases hf
  cases hs
  cases he
  rfl

/-- Witness for C8 at a concrete input. -/
theorem decode_deterministic_witness :
    parseStructure chainCtx 20 chainFields = parseStructure chainCtx 20 chainFields :=
  decode_deterministic chainCtx chainCtx 20 chainFields rfl rfl rfl

/-- C9: for a `uint64` or `int64` field whose raw decode succeeds, the value
is a wide integer (`bigint`), and value mapping is the identity on it: a
mapping entry's value is a JavaScript `number | string`, strict equality
against a `bigint` is always false, so no entry ever matches and the decoded
value passes through unmapped regardless of the `valueMap` contents. -/
theorem bigint_value_mapping_identity (d : FieldDefinition) (data : List Nat)
    (v : FieldValue) (ht : d.type = .uint64 ∨ d.type = .int64)
    (hv : parseValueOpt d data = some v) :
    (∃ n, v = .big n) ∧ applyValueMapping d v = v := by
  have hbig : ∃ n, v = .big n := by
    unfold parseValueOpt at hv
    split at hv
    · cases hv
    · rcases ht with ht | ht <;>
        · rw [Option.some_inj] at hv
          subst hv
          unfold decodeValue
          rw [ht]
          exact ⟨_, rfl⟩
  refine ⟨hbig, ?_⟩
  rcases hbig with ⟨n, rfl⟩
  exact applyValueMapping_big d n

/-- Witness for C9: decoding eight big-endian bytes `00 … 05` as `uint64`
yields the bigint 5, and the value map entry matching the *number* 5 does not
fire. -/
theorem bigint_value_mapping_identity_witness :
    applyValueMapping bigDef (.big 5) = .big 5 :=
  (bigint_value_mapping_identity bigDef [0, 0, 0, 0, 0, 0, 0, 5] (.big 5)
    (Or.inl rfl) rfl).2

/-- C3 (counterexample): two priority edge cases refute the claim as stated.
First, a field with a static repeat count `0` and no `repeatRef`
(`rep0Def.repeats = some 0`): the claim's fallback order ("else the static
repeats, else 1") yields 0, but `definition.repeats || 1` treats the falsy 0
as unset and `getRepeatCount` returns 1.  Second, a field whose `lengthRef`
is the empty string while a decoded field registered under the empty-string
id has numeric value 9 (`emptyIdMap`): by the claim the reference names a
previously decoded field with a numeric value and should win with 9, but the
truthiness guard `if (definition.lengthRef)` skips the empty string and the
static length 4 is used. -/
theorem length_repeat_resolution_counterexample :
    getRepeatCount [] rep0Def = 1 ∧ rep0Def.repeats = some 0 ∧
      rep0Def.repeatRef = none ∧
    getFieldLength emptyIdMap emptyRefDef = 4 ∧
      emptyRefDef.lengthRef = some "" ∧
      (refMapGet emptyIdMap "").map ParsedField.value = some (.num 9) :=
  ⟨rfl, rfl, rfl, rfl, rfl, rfl⟩

/-- C3 (amended): the resolution priority holds with two qualifications the
code forces: a reference only participates when it is present **and
non-empty** (JavaScript truthiness), and a static `repeats` of `0` (falsy)
falls back to 1.  With `resolveNumericRef` naming that resolution rule: a
resolving length reference wins (even over a present static length); an
absent or unresolved one falls back to the static `length`, else to the
type's fixed size, else to 1.  Symmetrically for the repeat count: the
resolving reference wins, else the static `repeats` unless it is unset or 0,
else 1. -/
theorem length_repeat_resolution_amended (pf : RefMap) (d : FieldDefinition) :
    (∀ n, resolveNumericRef pf d.lengthRef = some n → getFieldLength pf d = n) ∧
    (resolveNumericRef pf d.lengthRef = none → ∀ l, d.length = some l →
      getFieldLength pf d = l) ∧
    (resolveNumericRef pf d.lengthRef = none → d.length = none →
      getFieldLength pf d = (getDataTypeSize d.type).getD 1) ∧
    (∀ n, resolveNumericRef pf d.repeatRef = some n → getRepeatCount pf d = n) ∧
    (resolveNumericRef pf d.repeatRef = none →
      getRepeatCount pf d =
        match d.repeats with
        | some r => if r = 0 then 1 else r
        | none => 1) := by
  have hl : getFieldLength pf d =
      (match resolveNumericRef pf d.lengthRef with
        | some n => n
        | none =>
          match d.length with
          | some l => l
          | none =>
            match getDataTypeSize d.type with
            | some ts => ts
            | none => 1) := rfl
  have hr : getRepeatCount pf d =
      (match resolveNumericRef pf d.repeatRef with
        | some n => n
        | none =>
          match d.repeats with
          | some r => if r = 0 then 1 else r
          | none => 1) := rfl
  refine ⟨?_, ?_, ?_, ?_, ?_⟩
  · intro n h
    rw [hl, h]
  · intro h l hlen
    rw [hl, h, hlen]
  · intro h hlen
    rw [hl, h, hlen]
    cases getDataTypeSize d.type <;> rfl
  · intro n h
    rw [hr, h]
  · intro h
    rw [hr, h]

/-- Witness for C3 (amended): with id `len` decoded to the numeric value 7,
a string field carrying both `lengthRef = "len"` and a static `length = 3`
resolves to 7 — the reference wins. -/
theorem length_repeat_resolution_amended_witness :
    getFieldLength refMap7 lenRefDef = 7 :=
  (length_repeat_resolution_amended refMap7 lenRefDef).1 7 rfl

/-- Slicing `Blob.slice` over in-range indices is plain drop-and-take. -/
theorem readFileSlice_of_bounds (data : List Nat) (s e : Int) (h0 : 0 ≤ s)
    (hse : s ≤ e) (he : e ≤ (data.length : Int)) :
    readFileSlice data s e = (data.drop s.toNat).take (e - s).toNat := by
  simp only [readFileSlice]
  rw [if_neg (by omega), if_neg (by omega)]
  rw [min_eq_left (by omega), min_eq_left (by omega)]
  rw [max_eq_left (by omega)]

/-- C4 (counterexample): a `uint32` field with a static length of 2 decoded
at offset 0 of the 3-byte file `00 01 02`.  The bytes available from the
offset (3) are fewer than the type's fixed size (4), so by the claim the
result's `rawValue` should be exactly the 3 available bytes; the code reads
only `min(requestedLength, available) = 2` bytes: `rawValue = [0, 1]`,
`length = 2` (the requested length), `value = null`. -/
theorem insufficient_data_counterexample :
    insufCtx.file = [0, 1, 2] ∧
    getDataTypeSize insufDef.type = some 4 ∧
    insufCtx.fileSize - 0 < 4 ∧
    (parseField insufCtx [] 20 insufDef 0 none).map
      (fun p => (p.value, p.length, p.rawValue)) = some (.null, 2, [0, 1]) :=
  ⟨rfl, rfl, by decide, rfl⟩

/-- C4 (amended): for a fixed-size type decoded at a resolved offset strictly
inside the source with fewer available bytes than the type's fixed size (and
a non-negative resolved requested length), the result is `value = null`,
`length` equal to the *requested* length, and `rawValue` equal to the first
`min(requestedLength, availableBytes)` bytes from the offset — which is
exactly the available bytes whenever the requested length is at least the
available count, e.g. when the requested length defaults to the type's own
size. -/
theorem insufficient_data_amended (ctx : ParserCtx) (pf : RefMap) (fuel : Nat)
    (d : FieldDefinition) (startOffset : Int) (rc : Option Int) (ts : Int)
    (hts : getDataTypeSize d.type = some ts)
    (h0 : 0 ≤ resolvedOffset d startOffset)
    (h1 : resolvedOffset d startOffset < ctx.fileSize)
    (hreq : 0 ≤ getFieldLength pf d)
    (h2 : ctx.fileSize - resolvedOffset d startOffset < ts) :
    parseField ctx pf (fuel + 1) d startOffset rc =
      some (.mk d .null
        ((ctx.file.drop (resolvedOffset d startOffset).toNat).take
          (min (getFieldLength pf d)
            (ctx.fileSize - resolvedOffset d startOffset)).toNat)
        (resolvedOffset d startOffset) (getFieldLength pf d) none) := by
  have hscript : ¬ d.type = .script := by
    intro h
    rw [h] at hts
    cases hts
  have hstruct : ¬ d.type = .struct := by
    intro h
    rw [h] at hts
    cases hts
  have hins : insufficientFixed (getDataTypeSize d.type)
      (min (getFieldLength pf d) (ctx.fileSize - resolvedOffset d startOffset)) = true := by
    rw [hts]
    unfold insufficientFixed
    have := min_le_right (getFieldLength pf d)
      (ctx.fileSize - resolvedOffset d startOffset)
    simp only [decide_eq_true_eq]
    omega
  simp only [parseField]
  rw [if_neg (by omega), if_neg hscript, if_neg (fun hc => hstruct hc.1), if_pos hins]
  rw [readFileSlice_of_bounds ctx.file _ _ h0 (by omega) (by
    have := min_le_right (getFieldLength pf d)
      (ctx.fileSize - resolvedOffset d startOffset)
    unfold ParserCtx.fileSize at *
    omega)]
  have harith : resolvedOffset d startOffset +
      min (getFieldLength pf d) (ctx.fileSize - resolvedOffset d startOffset) -
      resolvedOffset d startOffset =
      min (getFieldLength pf d) (ctx.fileSize - resolvedOffset d startOffset) := by
    ring
  rw [harith]

/-- Witness for C4 (amended), which is also the spec's own example: a
`uint32` decoded from a 2-byte file yields `value = null`, `length = 4`
(the requested size) and `rawValue` equal to exactly those 2 bytes. -/
theorem insufficient_data_amended_witness :
    parseField insufCtxW [] 20 insufDefW 0 none =
      some (.mk insufDefW .null [1, 2] 0 4 none) :=
  insufficient_data_amended insufCtxW [] 19 insufDefW 0 none 4 rfl
    (by decide) (by decide) (by decide) (by decide)

/-- The repeat loop never appends an instance that decoded to a null value
with zero length: the loop breaks on that condition before pushing. -/
theorem parseRepeatedAux_no_sentinel (ctx : ParserCtx) (pf : RefMap) :
    ∀ (fuel : Nat) (d : FieldDefinition) (remaining : Nat) (i cur : Int)
      (children : List ParsedField) (finalOffset : Int),
    parseRepeatedAux ctx pf fuel d remaining i cur = some (children, finalOffset) →
    ∀ c ∈ children, ¬(c.value = .null ∧ c.length = 0) := by
  intro fuel
  induction fuel with
  | zero =>
    intro d remaining i cur children fo h
    simp [parseRepeatedAux] at h
  | succ fuel ih =>
    intro d remaining i cur children fo h
    match remaining with
    | 0 =>
      simp only [parseRepeatedAux] at h
      cases h
      intro c hc
      cases hc
    | remaining + 1 =>
      simp only [parseRepeatedAux] at h
      split at h
      · cases h
        intro c hc
        cases hc
      · split at h
        · cases h
        · rename_i itemParsed hitem
          split at h
          · cases h
            intro c hc
            cases hc
          · rename_i hstop
            split at h
            · cases h
            · rename_i restChildren restOffset hrest
              cases h
              intro c hc
              rcases List.mem_cons.mp hc with rfl | hmem
              · intro ⟨hnull, hzero⟩
                exact hstop ⟨(isNull_iff c.value).mpr hnull, hzero⟩
              · exact ih d remaining (i + 1) _ _ _ hrest c hmem

/-- C10: the aggregated children of a repeated field never contain an
instance whose value is null with length 0 (iteration stops before appending
such an instance), and the aggregate's `value` is exactly the array of the
children's values — in particular the two arrays always have equal length. -/
theorem repeated_children_no_null_sentinel (ctx : ParserCtx) (pf : RefMap)
    (fuel : Nat) (d : FieldDefinition) (offset count : Int) (r : ParsedField)
    (h : parseRepeatedField ctx pf fuel d offset count = some r) :
    ∃ cs, r.children = some cs ∧
      r.value = .arr (cs.map ParsedField.value) ∧
      ∀ c ∈ cs, ¬(c.value = .null ∧ c.length = 0) := by
  match fuel with
  | 0 => simp [parseRepeatedField] at h
  | fuel + 1 =>
    simp only [parseRepeatedField] at h
    split at h
    · cases h
    · rename_i children currentOffset heq
      cases h
      exact ⟨children, rfl, rfl,
        parseRepeatedAux_no_sentinel ctx pf fuel d count.toNat 0 offset children
          currentOffset heq⟩

/-- Witness for C10 on the repository's repeated-field test input. -/
theorem repeated_children_no_null_sentinel_witness :
    ∃ cs, ((parseRepeatedField repCtx [] 20 repDef 0 2).getD pfDefault).children = some cs ∧
      ((parseRepeatedField repCtx [] 20 repDef 0 2).getD pfDefault).value =
        .arr (cs.map ParsedField.value) ∧
      ∀ c ∈ cs, ¬(c.value = .null ∧ c.length = 0) :=
  repeated_children_no_null_sentinel repCtx [] 20 repDef 0 2 _ rfl

/-- C6: every script failure — a throw, a malformed (non-object) return, a
return without the required `value`/`length` shape, or a negative or
non-number `length` — is converted into a result whose value is the
human-readable string `Script Error: …`, whose length is 0 and whose raw
bytes are empty; and at the top level such a field never aborts decoding of
the subsequent sibling fields: the driver continues over the remaining list
at the unchanged offset with the error result registered like any other. -/
theorem script_failure_contained (ctx : ParserCtx) (pf : RefMap)
    (d : FieldDefinition) (off : Int) (s : String) (fuel : Nat)
    (rest : List FieldDefinition)
    (hs : d.script = some s) (hne : s ≠ "")
    (hfail : scriptOutcomeFails (ctx.scriptEval s off pf)) :
    (∃ msg, parseScriptField ctx pf d off =
      .mk d (.str ("Script Error: " ++ msg)) [] off 0 none) ∧
    (d.type = .script → d.offset = none → off < ctx.fileSize →
      parseStructAux ctx (fuel + 2) pf off (d :: rest) =
        (parseStructAux ctx (fuel + 1) ((d.id, parseScriptField ctx pf d off) :: pf)
            off rest).map
          (fun results => parseScriptField ctx pf d off :: results)) := by
  have herr : ∃ msg, parseScriptField ctx pf d off =
      .mk d (.str ("Script Error: " ++ msg)) [] off 0 none := by
    unfold parseScriptField
    rw [hs]
    dsimp only
    rw [if_neg hne]
    rcases houtcome : ctx.scriptEval s off pf with msg | r
    · exact ⟨msg, rfl⟩
    · rcases r with _ | ⟨hv, v, hl, lin, len⟩
      · exact ⟨scriptShapeErrorMsg, rfl⟩
      · rw [houtcome] at hfail
        dsimp only
        by_cases h1 : hv = false ∨ hl = false
        · rw [if_pos h1]
          exact ⟨scriptShapeErrorMsg, rfl⟩
        · rw [if_neg h1]
          have h2 : lin = false ∨ len < 0 := by
            unfold scriptOutcomeFails at hfail
            tauto
          rw [if_pos h2]
          exact ⟨scriptLengthErrorMsg, rfl⟩
  refine ⟨herr, ?_⟩
  intro htype hoff hlt
  obtain ⟨msg, hp⟩ := herr
  have hpf : parseField ctx pf (fuel + 1) d off none =
      some (parseScriptField ctx pf d off) := by
    simp only [parseField]
    rw [show resolvedOffset d off = off by simp [resolvedOffset, hoff]]
    rw [if_neg (by omega), if_pos htype]
  rw [parseStructAux, hpf]
  dsimp only
  rw [hp]
  dsimp only [ParsedField.offset, ParsedField.length]
  rw [add_zero, if_neg (by omega)]
  cases parseStructAux ctx (fuel + 1)
      ((d.id, ParsedField.mk d (.str ("Script Error: " ++ msg)) [] off 0 none) :: pf)
      off rest <;> rfl

/-- Witness for C6: a script field whose execution throws `boom`, followed by
a `uint8` sibling, over a 2-byte file. -/
theorem script_failure_contained_witness :
    (∃ msg, parseScriptField scriptCtx [] scriptDef 0 =
      .mk scriptDef (.str ("Script Error: " ++ msg)) [] 0 0 none) ∧
    parseStructAux scriptCtx 20 [] 0 (scriptDef :: [afterDef]) =
      (parseStructAux scriptCtx 19
          [(scriptDef.id, parseScriptField scriptCtx [] scriptDef 0)] 0
          [afterDef]).map
        (fun results => parseScriptField scriptCtx [] scriptDef 0 :: results) := by
  have h := script_failure_contained scriptCtx [] scriptDef 0 "throw" 18 [afterDef] rfl
    (by decide) trivial
  exact ⟨h.1, h.2 rfl rfl (by decide)⟩

/-- Method `parseScriptField` reports the field's own definition and the resolved
offset, whatever the script does. -/
theorem parseScriptField_proj (ctx : ParserCtx) (pf : RefMap)
    (d : FieldDefinition) (off : Int) :
    (parseScriptField ctx pf d off).definition = d ∧
      (parseScriptField ctx pf d off).offset = off := by
  unfold parseScriptField
  cases d.script with
  | none => exact ⟨rfl, rfl⟩
  | some s =>
    dsimp only
    split
    · exact ⟨rfl, rfl⟩
    · cases ctx.scriptEval s off pf with
      | throws msg => exact ⟨rfl, rfl⟩
      | returns r =>
        cases r with
        | nonObject => exact ⟨rfl, rfl⟩
        | obj hv v hl lin len =>
          dsimp only
          split
          · exact ⟨rfl, rfl⟩
          · split
            · exact ⟨rfl, rfl⟩
            · exact ⟨rfl, rfl⟩

/-- A successful `parseSubstructure` reports the field's definition and the
offset it was invoked at. -/
theorem parseSubstructure_some (ctx : ParserCtx) (pf : RefMap) (fuel : Nat)
    (d : FieldDefinition) (off : Int) (p : ParsedField)
    (h : parseSubstructure ctx pf fuel d off = some p) :
    p.definition = d ∧ p.offset = off := by
  match fuel with
  | 0 => simp [parseSubstructure] at h
  | fuel + 1 =>
    simp only [parseSubstructure] at h
    split at h
    · cases h
      exact ⟨rfl, rfl⟩
    · split at h
      · cases h
      · cases h
        exact ⟨rfl, rfl⟩

/-- A successful `parseRepeatedField` reports the field's definition and the
offset it was invoked at. -/
theorem parseRepeatedField_some (ctx : ParserCtx) (pf : RefMap) (fuel : Nat)
    (d : FieldDefinition) (off count : Int) (p : ParsedField)
    (h : parseRepeatedField ctx pf fuel d off count = some p) :
    p.definition = d ∧ p.offset = off := by
  match fuel with
  | 0 => simp [parseRepeatedField] at h
  | fuel + 1 =>
    simp only [parseRepeatedField] at h
    split at h
    · cases h
    · cases h
      exact ⟨rfl, rfl⟩

/-- A successful `parseField` reports the field's own definition, and its
offset is the caller's running offset unless the descriptor carries an
explicit offset override. -/
theorem parseField_some (ctx : ParserCtx) (pf : RefMap) (fuel : Nat)
    (d : FieldDefinition) (start : Int) (rc : Option Int) (p : ParsedField)
    (h : parseField ctx pf fuel d start rc = some p) :
    p.definition = d ∧ p.offset = resolvedOffset d start := by
  match fuel with
  | 0 => simp [parseField] at h
  | fuel + 1 =>
    simp only [parseField] at h
    split at h
    · cases h
      exact ⟨rfl, rfl⟩
    · split at h
      · cases h
        exact parseScriptField_proj ctx pf d _
      · split at h
        · exact parseSubstructure_some ctx pf fuel d _ p h
        · split at h
          · cases h
            exact ⟨rfl, rfl⟩
          · split at h
            · exact parseRepeatedField_some ctx pf fuel d _ _ p h
            · split at h
              · split at h
                · cases h
                · cases h
                  exact ⟨rfl, rfl⟩
              · cases h
                exact ⟨rfl, rfl⟩

/-- The first result of the driver loop starts at the loop's running offset
(unless its descriptor overrides the offset). -/
theorem parseStructAux_head (ctx : ParserCtx) (fuel : Nat) (pf : RefMap)
    (off : Int) (fields : List FieldDefinition) (rs : List ParsedField)
    (h : parseStructAux ctx fuel pf off fields = some rs) :
    ∀ p ∈ rs.head?, p.offset = resolvedOffset p.definition off := by
  match fields with
  | [] =>
    simp only [parseStructAux] at h
    cases h
    intro p hp
    cases hp
  | field :: rest =>
    match fuel with
    | 0 => simp [parseStructAux] at h
    | fuel + 1 =>
      simp only [parseStructAux] at h
      split at h
      · cases h
      · rename_i parsed hpf
        obtain ⟨hdef, hoff⟩ := parseField_some ctx pf fuel field off none parsed hpf
        split at h
        · cases h
          intro p hp
          cases hp
          rw [hoff, hdef]
        · split at h
          · cases h
          · cases h
            intro p hp
            cases hp
            rw [hoff, hdef]

/-- Generalized C5 invariant over the driver loop: the results chain
sequentially (each next sibling without an explicit offset override starts at
the previous result's end), every result except possibly the last ends
strictly before the end of the file (the loop stops once the running offset
reaches or passes it), and at most one result is produced per descriptor. -/
theorem parseStructAux_chain (ctx : ParserCtx) :
    ∀ (fields : List FieldDefinition) (fuel : Nat) (pf : RefMap) (off : Int)
      (rs : List ParsedField),
    parseStructAux ctx fuel pf off fields = some rs →
    List.Chain' followsSequentially rs ∧
      (∀ p ∈ rs.dropLast, p.offset + p.length < ctx.fileSize) ∧
      rs.length ≤ fields.length := by
  intro fields
  induction fields with
  | nil =>
    intro fuel pf off rs h
    simp only [parseStructAux] at h
    cases h
    exact ⟨List.chain'_nil, by simp, by simp⟩
  | cons field rest ih =>
    intro fuel pf off rs h
    match fuel with
    | 0 => simp [parseStructAux] at h
    | fuel + 1 =>
      simp only [parseStructAux] at h
      split at h
      · cases h
      · rename_i parsed hpf
        split at h
        · cases h
          refine ⟨List.chain'_singleton _, ?_, by simp⟩
          intro p hp
          simp at hp
        · rename_i hlt
          split at h
          · cases h
          · rename_i results hrec
            cases h
            obtain ⟨hc, hstop, hlen⟩ := ih fuel _ _ results hrec
            refine ⟨?_, ?_, by simpa using hlen⟩
            · cases results with
              | nil => exact List.chain'_singleton _
              | cons q qs =>
                rw [List.chain'_cons]
                refine ⟨?_, hc⟩
                intro hqoff
                have hq := parseStructAux_head ctx fuel _ _ rest (q :: qs) hrec q
                  (by simp)
                rw [hq, resolvedOffset, hqoff]
            · cases results with
              | nil =>
                intro p hp
                simp at hp
              | cons q qs =>
                intro p hp
                rw [List.dropLast_cons₂] at hp
                rcases List.mem_cons.mp hp with rfl | hmem
                · omega
                · exact hstop p hmem

/-- C5: the top-level driver threads a running offset from 0 — decode at the
current offset, append, register, advance to `result.offset + result.length`,
stop once that offset reaches or passes the end of the source.
Consequently every decoded sibling sequence chains: each field's offset is
the previous field's `offset + length` unless its descriptor carries an
explicit fixed offset; every result except possibly the last ends strictly
inside the source; and there is at most one result per descriptor. -/
theorem structure_offset_chain (ctx : ParserCtx) (fuel : Nat)
    (fields : List FieldDefinition) (rs : List ParsedField)
    (h : parseStructure ctx fuel fields = some rs) :
    List.Chain' followsSequentially rs ∧
      (∀ p ∈ rs.dropLast, p.offset + p.length < ctx.fileSize) ∧
      rs.length ≤ fields.length :=
  parseStructAux_chain ctx fields fuel [] 0 rs h

/-- Witness for C5 on a concrete two-field decode. -/
theorem structure_offset_chain_witness :
    List.Chain' followsSequentially ((parseStructure chainCtx 20 chainFields).getD []) ∧
      ((parseStructure chainCtx 20 chainFields).getD []).length ≤ chainFields.length := by
  have h := structure_offset_chain chainCtx 20 chainFields _ rfl
  exact ⟨h.1, h.2.2⟩

/-- Sunny-day shape of a primitive field decode: no offset override, start
inside the file, resolved requested length non-negative and fitting in the
remaining bytes, enough bytes for a fixed-size type, no repetition. -/
theorem parseField_simple (ctx : ParserCtx) (pf : RefMap) (fuel : Nat)
    (d : FieldDefinition) (start : Int)
    (hoff : d.offset = none)
    (hscript : ¬ d.type = .script)
    (hstruct : ¬ d.type = .struct)
    (hin : 0 ≤ start) (hlt : start < ctx.fileSize)
    (hreq : 0 ≤ getFieldLength pf d)
    (hfit : getFieldLength pf d ≤ ctx.fileSize - start)
    (hts : insufficientFixed (getDataTypeSize d.type) (getFieldLength pf d) = false)
    (hrc : getRepeatCount pf d ≤ 1) :
    parseField ctx pf (fuel + 1) d start none =
      some (.mk d
        (match parseValueOpt d
            ((ctx.file.drop start.toNat).take (getFieldLength pf d).toNat) with
          | some v => applyBitDescriptions d (applyValueMapping d v)
          | none => .null)
        ((ctx.file.drop start.toNat).take (getFieldLength pf d).toNat)
        start (getFieldLength pf d) none) := by
  have hro : resolvedOffset d start = start := by
    simp [resolvedOffset, hoff]
  simp only [parseField, hro]
  rw [if_neg (by omega), if_neg hscript, if_neg (fun hc => hstruct hc.1)]
  rw [min_eq_left hfit]
  rw [if_neg (by rw [hts]; exact Bool.false_ne_true)]
  rw [if_neg (by omega)]
  rw [if_neg (fun hc => hstruct hc.1)]
  rw [readFileSlice_of_bounds ctx.file start (start + getFieldLength pf d) hin
    (by omega) (by unfold ParserCtx.fileSize at hfit hlt; omega)]
  rw [show start + getFieldLength pf d - start = getFieldLength pf d by ring]

/-- C1 (counterexample): file `02 03 41 42 43 44`, outer fields
`[uint8 len; struct → template t]` with `t = [uint8 u; string w
(lengthRef "u"); string s2 (lengthRef "len")]`.  The claim says substructure
decoding uses a separate, emptied reference scope in which only substructure
siblings are visible: then `w` (whose `lengthRef` names its sibling `u`,
decoded to 3 immediately before it) would get length 3, and `s2` (whose
`lengthRef` names the outer field `len`) would fall back to length 1.  The
code does the opposite: `w` falls back to length 1 (its sibling was never
registered) and `s2` resolves the outer `len = 2` and gets length 2. -/
theorem substructure_scope_counterexample :
    (parseStructure (scopeCtx 2 3 [65, 66, 67, 68]) 20 scopeFields).map
      (fun rs => rs.map (fun p => (p.children.getD []).map
        (fun c => (c.definition.id, c.value, c.length)))) =
      some [[], [("u", .num 3, 1), ("w", .str "A", 1), ("s2", .str "BC", 2)]] := rfl

/-- C1 (amended): substructure fields are decoded against the *shared*
top-level reference scope, not an emptied one: a reference inside a
substructure resolves to the outer structure's already-decoded top-level
fields, while substructure siblings are never registered in any scope, so a
reference to a sibling falls back to the static default.  Over the input
family `a :: b :: bs` with the scoping fixture (outer `uint8 len = a`, then a
struct whose template is `[uint8 u; string w (lengthRef "u"); string s2
(lengthRef "len")]`): for every `a`, `b` and tail, `w` decodes with fallback
length 1 — independent of its sibling `u`'s decoded value `b` — while `s2`
decodes with length `a`, the outer field's decoded value. -/
theorem substructure_scope_amended (a b : Nat) (bs : List Nat)
    (hab : a + 1 < bs.length) :
    (parseStructure (scopeCtx a b bs) 20 scopeFields).map
      (fun rs => rs.map childLengths) = some [[], [1, 1, (a : Int)]] := by
  have hsize : (scopeCtx a b bs).fileSize = (bs.length : Int) + 2 := by
    simp [scopeCtx, ParserCtx.fileSize]
    ring
  have hA : parseField (scopeCtx a b bs) [] 19 lenDef 0 none =
      some (.mk lenDef (.num (a : Int)) [a] 0 1 none) :=
    parseField_simple (scopeCtx a b bs) [] 18 lenDef 0 rfl (by decide) (by decide)
      le_rfl (by rw [hsize]; omega) (by decide)
      (by rw [show getFieldLength ([] : RefMap) lenDef = 1 from rfl, hsize]; omega)
      (by decide) (by decide)
  have hU : parseField (scopeCtx a b bs)
      [(lenDef.id, ParsedField.mk lenDef (.num (a : Int)) [a] 0 1 none)] 15 uDef 1 none =
      some (.mk uDef (.num (b : Int)) [b] 1 1 none) :=
    parseField_simple (scopeCtx a b bs)
      [(lenDef.id, ParsedField.mk lenDef (.num (a : Int)) [a] 0 1 none)]
      14 uDef 1 rfl (by decide) (by decide)
      (by norm_num) (by rw [hsize]; omega)
      (by show (0 : Int) ≤ 1; norm_num)
      (by rw [show getFieldLength
          [(lenDef.id, ParsedField.mk lenDef (.num (a : Int)) [a] 0 1 none)] uDef = 1
          from rfl, hsize]; omega)
      (by rfl) (by show (1 : Int) ≤ 1; exact le_rfl)
  have hW : parseField (scopeCtx a b bs)
      [(lenDef.id, ParsedField.mk lenDef (.num (a : Int)) [a] 0 1 none)] 14 wDef 2 none =
      some (.mk wDef (.str (textDecode (bs.take 1))) (bs.take 1) 2 1 none) :=
    parseField_simple (scopeCtx a b bs)
      [(lenDef.id, ParsedField.mk lenDef (.num (a : Int)) [a] 0 1 none)]
      13 wDef 2 rfl (by decide) (by decide)
      (by norm_num) (by rw [hsize]; omega)
      (by show (0 : Int) ≤ 1; norm_num)
      (by rw [show getFieldLength
          [(lenDef.id, ParsedField.mk lenDef (.num (a : Int)) [a] 0 1 none)] wDef = 1
          from rfl, hsize]; omega)
      (by rfl) (by show (1 : Int) ≤ 1; exact le_rfl)
  have hS2 : parseField (scopeCtx a b bs)
      [(lenDef.id, ParsedField.mk lenDef (.num (a : Int)) [a] 0 1 none)] 13 s2Def 3 none =
      some (.mk s2Def (.str (textDecode ((bs.drop 1).take a))) ((bs.drop 1).take a)
        3 (a : Int) none) :=
    parseField_simple (scopeCtx a b bs)
      [(lenDef.id, ParsedField.mk lenDef (.num (a : Int)) [a] 0 1 none)]
      12 s2Def 3 rfl (by decide) (by decide)
      (by norm_num) (by rw [hsize]; omega)
      (by show (0 : Int) ≤ (a : Int); positivity)
      (by rw [show getFieldLength
          [(lenDef.id, ParsedField.mk lenDef (.num (a : Int)) [a] 0 1 none)] s2Def =
          (a : Int) from rfl, hsize]; omega)
      (by rfl)
      (by show (1 : Int) ≤ 1; exact le_rfl)
  have hList : parseFieldList (scopeCtx a b bs)
      [(lenDef.id, ParsedField.mk lenDef (.num (a : Int)) [a] 0 1 none)]
      16 [uDef, wDef, s2Def] 1 =
      some ([ParsedField.mk uDef (.num (b : Int)) [b] 1 1 none,
             ParsedField.mk wDef (.str (textDecode (bs.take 1))) (bs.take 1) 2 1 none,
             ParsedField.mk s2Def (.str (textDecode ((bs.drop 1).take a)))
               ((bs.drop 1).take a) 3 (a : Int) none],
            3 + (a : Int)) := by
    rw [parseFieldList,
      if_neg (show ¬((1 : Int) ≥ (scopeCtx a b bs).fileSize) from by rw [hsize]; omega),
      hU]
    dsimp only [ParsedField.offset, ParsedField.length]
    rw [parseFieldList,
      if_neg (show ¬((1 : Int) + 1 ≥ (scopeCtx a b bs).fileSize) from by
        rw [hsize]; omega),
      show (1 : Int) + 1 = 2 from by norm_num, hW]
    dsimp only [ParsedField.offset, ParsedField.length]
    rw [parseFieldList,
      if_neg (show ¬((2 : Int) + 1 ≥ (scopeCtx a b bs).fileSize) from by
        rw [hsize]; omega),
      show (2 : Int) + 1 = 3 from by norm_num, hS2]
    dsimp only [ParsedField.offset, ParsedField.length]
    rw [parseFieldList]
  have hSub : parseSubstructure (scopeCtx a b bs)
      [(lenDef.id, ParsedField.mk lenDef (.num (a : Int)) [a] 0 1 none)]
      17 subDef 1 =
      some (ParsedField.mk subDef
        (.arr [.num (b : Int), .str (textDecode (bs.take 1)),
               .str (textDecode ((bs.drop 1).take a))])
        (readFileSlice (scopeCtx a b bs).file 1 (1 + (2 + (a : Int))))
        1 (2 + (a : Int))
        (some [ParsedField.mk uDef (.num (b : Int)) [b] 1 1 none,
               ParsedField.mk wDef (.str (textDecode (bs.take 1))) (bs.take 1) 2 1 none,
               ParsedField.mk s2Def (.str (textDecode ((bs.drop 1).take a)))
                 ((bs.drop 1).take a) 3 (a : Int) none])) := by
    simp only [parseSubstructure]
    rw [show (scopeCtx a b bs).substructures.find?
        (fun s => some s.id == subDef.substructureRef) = some tmplT from rfl]
    dsimp only
    rw [show tmplT.fields = [uDef, wDef, s2Def] from rfl, hList]
    dsimp only
    rw [show 3 + (a : Int) - 1 = 2 + a from by ring]
    rw [min_eq_left (show 2 + (a : Int) ≤ (scopeCtx a b bs).fileSize - 1 from by
      rw [hsize]; omega)]
    rfl
  have hB : parseField (scopeCtx a b bs)
      [(lenDef.id, ParsedField.mk lenDef (.num (a : Int)) [a] 0 1 none)]
      18 subDef 1 none =
      some (ParsedField.mk subDef
        (.arr [.num (b : Int), .str (textDecode (bs.take 1)),
               .str (textDecode ((bs.drop 1).take a))])
        (readFileSlice (scopeCtx a b bs).file 1 (1 + (2 + (a : Int))))
        1 (2 + (a : Int))
        (some [ParsedField.mk uDef (.num (b : Int)) [b] 1 1 none,
               ParsedField.mk wDef (.str (textDecode (bs.take 1))) (bs.take 1) 2 1 none,
               ParsedField.mk s2Def (.str (textDecode ((bs.drop 1).take a)))
                 ((bs.drop 1).take a) 3 (a : Int) none])) := by
    simp only [parseField]
    rw [show ∀ z : Int, resolvedOffset subDef z = z from fun _ => rfl]
    rw [if_neg (show ¬((1 : Int) ≥ (scopeCtx a b bs).fileSize) from by
      rw [hsize]; omega)]
    rw [if_neg (show ¬(subDef.type = DataType.script) from by decide)]
    rw [if_pos (show subDef.type = .struct ∧ optTruthy subDef.substructureRef = true
      from ⟨rfl, rfl⟩)]
    exact hSub
  simp only [parseStructure, scopeFields]
  rw [parseStructAux, hA]
  dsimp only [ParsedField.offset, ParsedField.length]
  rw [zero_add]
  rw [if_neg (show ¬((1 : Int) ≥ (scopeCtx a b bs).fileSize) from by
    rw [hsize]; omega)]
  rw [parseStructAux, hB]
  dsimp only [ParsedField.offset, ParsedField.length]
  rw [if_neg (show ¬((1 : Int) + (2 + (a : Int)) ≥ (scopeCtx a b bs).fileSize) from by
    rw [hsize]; omega)]
  rw [parseStructAux]
  rfl

/-- Witness for C1 (amended) at `a = 2`, `b = 3`, tail `41 42 43 44`. -/
theorem substructure_scope_amended_witness :
    (parseStructure (scopeCtx 2 3 [65, 66, 67, 68]) 20 scopeFields).map
      (fun rs => rs.map childLengths) = some [[], [1, 1, (2 : Int)]] :=
  substructure_scope_amended 2 3 [65, 66, 67, 68] (by decide)

end BinaryParser
